import Mathlib

/-!
Shallow embedding of the inventory-management core of this repository
(src/app.py) and proofs about it.

The persistent PostgreSQL state is modelled as an explicit `DB` value
(list of product rows, list of transaction rows, and a counter standing
for the system-generated UUID default of both tables).  Every operation
of the source that the claims touch is translated into a pure function
from `DB` to `DB` together with the `(success, message)` pair the Python
function returns.  Success-message strings that interpolate product data
are abbreviated to constants; every failure message is kept verbatim.
-/

namespace Inventory

/-! ### Models of the Python string primitives used by the source -/

/-- Per-character model of Python `str.lower()`.  The Unicode case tables
are modelled restricted to two blocks: the Basic Latin uppercase letters
`A`-`Z`, which map to their lowercase forms, and the MATHEMATICAL BOLD
CAPITAL letters U+1D400-U+1D419, which are uppercase characters with no
lowercase mapping, so Python `lower()` returns them unchanged; all other
characters are treated as caseless and kept unchanged. -/
def pyLowerChar (c : Char) : Char :=
  if 65 ≤ c.toNat ∧ c.toNat ≤ 90 then Char.ofNat (c.toNat + 32) else c

/-- Model of Python `str.lower()`: lowercase each character. -/
def pyLower (s : String) : String := ⟨s.data.map pyLowerChar⟩

/-- Model of Python `str.strip()`: drop leading and trailing whitespace. -/
def pyStrip (s : String) : String :=
  ⟨((s.data.dropWhile Char.isWhitespace).reverse.dropWhile Char.isWhitespace).reverse⟩

/-- Per-character model of Python `c.isupper()` on the same restricted
case tables as `pyLowerChar`: true for `A`-`Z` and for the uppercase
letters U+1D400-U+1D419, which survive `lower()` unchanged. -/
def pyIsUpperChar (c : Char) : Bool :=
  (65 ≤ c.toNat && c.toNat ≤ 90) || (0x1D400 ≤ c.toNat && c.toNat ≤ 0x1D419)

/-- Model of Python `any(c.isupper() for c in name)`. -/
def hasUpper (s : String) : Bool := s.data.any pyIsUpperChar

/-- Python truthiness of an optional string argument: `None` and `""` are
falsy, every non-empty string is truthy. -/
def truthy : Option String → Bool
  | none => false
  | some s => !s.data.isEmpty

/-! ### Data model: the two tables of `initialize_database` -/

/-- A row of the `products` table (`create_products_table`).  `puuid` models
the `uuid UUID PRIMARY KEY DEFAULT gen_random_uuid()` column.  Note the
schema declares `id TEXT NOT NULL` with no UNIQUE constraint. -/
structure Product where
  puuid : Nat
  id : String
  name : String
  category : String
  stock : Int
deriving DecidableEq

/-- A row of the `transactions` table (`create_transactions_table`). -/
structure Transaction where
  tuuid : Nat
  date : String
  product_uuid : Nat
  product_id : String
  product_name : String
  quantity_added : Int
  quantity_sold : Int
  remarks : String
deriving DecidableEq

/-- The persistent store: both tables plus the generator of fresh UUIDs. -/
structure DB where
  products : List Product
  transactions : List Transaction
  nextUuid : Nat
deriving DecidableEq

/-! ### Validation helpers (src/app.py, DATA VALIDATION section) -/

/-- `validate_product_name` from src/app.py. -/
def validate_product_name (name : String) : Bool × String :=
  if hasUpper name then (false, "Error: Product name must be lowercase only.")
  else (true, "")

/-- Result of `validate_stock_availability`: the Python function returns
either `(False, error_message)` or `(True, new_stock)`. -/
inductive StockCheck
  | fail (msg : String)
  | ok (new_stock : Int)
deriving DecidableEq

/-- `validate_stock_availability` from src/app.py. -/
def validate_stock_availability (current_stock quantity_to_sell : Int) : StockCheck :=
  let new_stock := current_stock - quantity_to_sell
  if new_stock < 0 then .fail "Error: Not enough stock to sell."
  else .ok new_stock

/-! ### Product operations -/

/-- `add_product` from src/app.py.  It first rewrites
`pid = str(pid).strip()` and `name = name.lower().strip()`, then validates
the (already lowercased) name, then INSERTs.  The `products` table has no
UNIQUE constraint on `id`, so the INSERT raises no `IntegrityError`; the
`duplicate key ... products_id_key` handler of the source is dead code and
the insert always succeeds once validation passes. -/
def add_product (db : DB) (pid name category : String) : DB × Bool × String :=
  let pid := pyStrip pid
  let name := pyStrip (pyLower name)
  match validate_product_name name with
  | (false, msg) => (db, false, msg)
  | (true, _) =>
    ({ db with
        products := db.products ++
          [{ puuid := db.nextUuid, id := pid, name := name,
             category := category, stock := 0 }],
        nextUuid := db.nextUuid + 1 },
     true, "Product added successfully.")

/-- `get_product_by_uuid` from src/app.py: `SELECT ... WHERE uuid=%s` with
`fetchone()`, i.e. the first row whose `uuid` matches. -/
def get_product_by_uuid (db : DB) (u : Nat) : Option Product :=
  db.products.find? (fun p => p.puuid == u)

/-- `update_product_stock` from src/app.py:
`UPDATE products SET stock=%s WHERE uuid=%s`. -/
def update_product_stock (db : DB) (u : Nat) (new_stock : Int) : DB :=
  { db with
      products := db.products.map
        (fun p => if p.puuid == u then { p with stock := new_stock } else p) }

/-- `record_transaction` from src/app.py: INSERT a new transaction row with
a fresh system-generated uuid. -/
def record_transaction (db : DB) (date : String) (u : Nat) (pid pname : String)
    (added sold : Int) (remarks : String) : DB :=
  { db with
      transactions := db.transactions ++
        [{ tuuid := db.nextUuid, date := date, product_uuid := u, product_id := pid,
           product_name := pname, quantity_added := added, quantity_sold := sold,
           remarks := remarks }],
      nextUuid := db.nextUuid + 1 }

/-- `update_stock` from src/app.py.  Note the source computes
`new_stock = current_stock + added - sold` and then, when `sold > 0`,
overwrites it with the value returned by `validate_stock_availability`,
which is `current_stock - sold` (the `added` term is dropped). -/
def update_stock (db : DB) (product_uuid : Nat) (date : String)
    (added sold : Int) (remarks : String) : DB × Bool × String :=
  match get_product_by_uuid db product_uuid with
  | none => (db, false, "Product not found.")
  | some p =>
    let new_stock := p.stock + added - sold
    if sold > 0 then
      match validate_stock_availability p.stock sold with
      | .fail msg => (db, false, msg)
      | .ok result =>
        let db1 := update_product_stock db p.puuid result
        let db2 := record_transaction db1 date p.puuid p.id p.name added sold remarks
        (db2, true, "Stock updated.")
    else
      let db1 := update_product_stock db p.puuid new_stock
      let db2 := record_transaction db1 date p.puuid p.id p.name added sold remarks
      (db2, true, "Stock updated.")

/-- Field rewrite applied to the matching `products` row by
`update_product_details`: each field is included in the SQL SET list only
when the corresponding argument is truthy (for strings) or `is not None`
(for the stock). -/
def applyProductUpdate (p : Product) (new_id new_name new_category : Option String)
    (new_stock : Option Int) : Product :=
  { p with
      id := if truthy new_id then pyStrip (new_id.getD "") else p.id,
      name := if truthy new_name then pyStrip (pyLower (new_name.getD "")) else p.name,
      category := if truthy new_category then pyStrip (new_category.getD "") else p.category,
      stock := match new_stock with | some v => v | none => p.stock }

/-- `update_product_details` from src/app.py.  Python treats the default
`None` and the empty string alike (`if new_id:`), while the stock check is
`new_stock is not None`.  When `new_id` (resp. `new_name`) is truthy the
owned transactions have their `product_id` (resp. `product_name`) snapshot
rewritten first; then, if any SET item was collected, the products row is
updated, otherwise the function reports "No changes made.". -/
def update_product_details (db : DB) (u : Nat)
    (new_id new_name new_category : Option String) (new_stock : Option Int) :
    DB × Bool × String :=
  let ts1 := if truthy new_id then
      db.transactions.map (fun t =>
        if t.product_uuid == u then { t with product_id := pyStrip (new_id.getD "") } else t)
    else db.transactions
  let ts2 := if truthy new_name then
      ts1.map (fun t =>
        if t.product_uuid == u then
          { t with product_name := pyStrip (pyLower (new_name.getD "")) }
        else t)
    else ts1
  if truthy new_id || truthy new_name || truthy new_category || new_stock.isSome then
    ({ db with
        transactions := ts2,
        products := db.products.map (fun p =>
          if p.puuid == u then applyProductUpdate p new_id new_name new_category new_stock
          else p) },
     true, "✅ Product updated successfully.")
  else
    (db, false, "No changes made.")

/-! ### Identifier allocator (CSV IMPORT section) -/

/-- `SELECT 1 FROM products WHERE id=%s` followed by `fetchone()`:
does some product row carry this external id? -/
def idExists (db : DB) (pid : String) : Bool :=
  db.products.any (fun p => p.id == pid)

/-- The sequence of identifiers probed by `generate_unique_product_id`:
the original proposal, then `original(1)`, `original(2)`, ... -/
def candidateId (original : String) : Nat → String
  | 0 => original
  | k + 1 => original ++ "(" ++ Nat.repr (k + 1) ++ ")"

/-- The `while True` probe loop of `generate_unique_product_id`, written
with explicit fuel.  `k` is the index of the candidate about to be probed
(`k = 0` is the original proposal, `k = c` is `original(c)`). -/
def genLoop (db : DB) (original : String) : Nat → Nat → String
  | k, 0 => candidateId original k
  | k, fuel + 1 =>
    if idExists db (candidateId original k) then genLoop db original (k + 1) fuel
    else candidateId original k

/-- `generate_unique_product_id` from src/app.py.  The source loop runs
until a free identifier is found; `db.products.length + 1` probes always
suffice because the probed candidates are pairwise distinct (proved
below), so this fuelled version agrees with the unbounded loop. -/
def generate_unique_product_id (db : DB) (original_pid : String) : String :=
  genLoop db original_pid 0 (db.products.length + 1)

/-! ### Bulk import (CSV IMPORT section) -/

/-- One row of the CSV dataframe handed to `process_csv_products`. -/
structure CsvRow where
  rid : String
  rname : String
  rcategory : String
deriving DecidableEq

/-- The `for idx, row in df_csv.iterrows()` loop of `process_csv_products`:
threads the store through the rows in order, counts successful
`add_product` calls and collects one `st.warning` line per failed row. -/
def processRows (db : DB) (idx : Nat) : List CsvRow → DB × Nat × List String
  | [] => (db, 0, [])
  | r :: rs =>
    let pid := generate_unique_product_id db r.rid
    let res := add_product db pid r.rname r.rcategory
    let rest := processRows res.1 (idx + 1) rs
    if res.2.1 then (rest.1, rest.2.1 + 1, rest.2.2)
    else (rest.1, rest.2.1,
      ("Row " ++ Nat.repr (idx + 1) ++ " skipped: " ++ res.2.2) :: rest.2.2)

/-- `process_csv_products` from src/app.py: returns the final store, the
`added_count` and the emitted warnings. -/
def process_csv_products (db : DB) (rows : List CsvRow) : DB × Nat × List String :=
  processRows db 0 rows

/-! ### Stock summary report (`get_stock_summary`) -/

/-- One output row of `get_stock_summary`:
`p.id, p.name, p.category, SUM(t.quantity_added), p.stock`. -/
structure SummaryRow where
  spid : String
  sname : String
  scategory : String
  total_added : Int
  current_stock : Int
deriving DecidableEq

/-- The rows of `products LEFT JOIN transactions ON p.uuid = t.product_uuid`
surviving the `WHERE t.quantity_added > 0` filter (which discards every
NULL-extended row, so the join is effectively inner). -/
def addedRows (db : DB) : List (Product × Transaction) :=
  db.products.flatMap (fun p =>
    (db.transactions.filter
        (fun t => t.product_uuid == p.puuid && decide (0 < t.quantity_added))).map
      (fun t => (p, t)))

/-- The `GROUP BY p.id, p.name, p.category, p.stock` key of the query:
note it does not include `p.uuid`. -/
def skey (p : Product) : String × String × String × Int :=
  (p.id, p.name, p.category, p.stock)

/-- `SUM(t.quantity_added)` of one `GROUP BY` group. -/
def groupTotal (db : DB) (k : String × String × String × Int) : Int :=
  (((addedRows db).filter (fun pt => skey pt.1 == k)).map
    (fun pt => pt.2.quantity_added)).sum

/-- The `ORDER BY total_added DESC` relation. -/
def summaryLE (a b : SummaryRow) : Prop := b.total_added ≤ a.total_added

instance : DecidableRel summaryLE := fun a b => Int.decLe b.total_added a.total_added

instance : IsTotal SummaryRow summaryLE :=
  ⟨fun a b => (le_total b.total_added a.total_added).imp (fun h => h) (fun h => h)⟩

instance : IsTrans SummaryRow summaryLE :=
  ⟨fun _ _ _ hab hbc => le_trans hbc hab⟩

/-- `get_stock_summary` from src/app.py: group the filtered join rows by
`skey`, sum `quantity_added` per group, and sort descending by the total
(SQL leaves the relative order of equal totals unspecified; an insertion
sort is one admissible realisation). -/
def get_stock_summary (db : DB) : List SummaryRow :=
  let keys := ((addedRows db).map (fun pt => skey pt.1)).dedup
  let grouped := keys.map (fun k =>
    { spid := k.1, sname := k.2.1, scategory := k.2.2.1,
      total_added := groupTotal db k, current_stock := k.2.2.2 })
  List.insertionSort summaryLE grouped

/-- Per-product total of `quantity_added` over its own movements with
`quantity_added > 0` (what the spec says a summary row should report). -/
def ownTotal (db : DB) (p : Product) : Int :=
  ((db.transactions.filter
      (fun t => t.product_uuid == p.puuid && decide (0 < t.quantity_added))).map
    (fun t => t.quantity_added)).sum

/-! ### Ledger sums (vocabulary for the stock invariant) -/

/-- Sum of `quantity_added` over the recorded movements of one product. -/
def sumAdded (db : DB) (u : Nat) : Int :=
  ((db.transactions.filter (fun t => t.product_uuid == u)).map
    (fun t => t.quantity_added)).sum

/-- Sum of `quantity_sold` over the recorded movements of one product. -/
def sumSold (db : DB) (u : Nat) : Int :=
  ((db.transactions.filter (fun t => t.product_uuid == u)).map
    (fun t => t.quantity_sold)).sum

/-- Decimal decoding of a digit-character list, most significant first
(used to prove `Nat.repr` injective for the allocator suffixes). -/
def decodeDigits : List Char → Nat → Nat
  | [], acc => acc
  | c :: cs, acc => decodeDigits cs (acc * 10 + (c.toNat - 48))

/-! ### Concrete stores used by witnesses and counterexamples -/

/-- The store right after `initialize_database`. -/
def emptyDB : DB := ⟨[], [], 0⟩

/-- One product `p1`/`widget` created through `add_product`. -/
def oneProductDB : DB := (add_product emptyDB "p1" "widget" "cat").1

/-- ... and 5 units received through `update_stock`. -/
def restockedDB : DB := (update_stock oneProductDB 0 "2024-01-01" 5 0 "restock").1

/-- A store holding a single product with stock 5. -/
def stock5DB : DB := ⟨[{ puuid := 0, id := "p1", name := "widget", category := "cat", stock := 5 }], [], 1⟩

/-- Allocator scenario: a product inserted under the first allocation of `sku1`. -/
def skuDB1 : DB := (add_product emptyDB (generate_unique_product_id emptyDB "sku1") "w" "c").1

/-- ... and a second product under the second allocation of `sku1`. -/
def skuDB2 : DB := (add_product skuDB1 (generate_unique_product_id skuDB1 "sku1") "w" "c").1

/-- Two distinct products (different `uuid`) sharing external id, name,
category and stock — a state `add_product` reaches because `products.id`
has no UNIQUE constraint — each with one stock-in movement of 5. -/
def dupKeyDB : DB :=
  ⟨[{ puuid := 0, id := "p1", name := "w", category := "c", stock := 5 },
    { puuid := 1, id := "p1", name := "w", category := "c", stock := 5 }],
   [{ tuuid := 10, date := "d", product_uuid := 0, product_id := "p1", product_name := "w",
      quantity_added := 5, quantity_sold := 0, remarks := "r" },
    { tuuid := 11, date := "d", product_uuid := 1, product_id := "p1", product_name := "w",
      quantity_added := 5, quantity_sold := 0, remarks := "r" }], 12⟩

/-- A product with one owned movement and one movement of another product. -/
def twoTxDB : DB :=
  ⟨[{ puuid := 0, id := "p1", name := "w", category := "c", stock := 5 },
    { puuid := 1, id := "p2", name := "v", category := "c", stock := 3 }],
   [{ tuuid := 10, date := "d1", product_uuid := 0, product_id := "p1", product_name := "w",
      quantity_added := 5, quantity_sold := 0, remarks := "r1" },
    { tuuid := 11, date := "d2", product_uuid := 1, product_id := "p2", product_name := "v",
      quantity_added := 3, quantity_sold := 0, remarks := "r2" }], 12⟩

/-! ### Injectivity of the decimal rendering used by the id allocator -/

theorem decodeDigits_append (xs ys : List Char) (acc : Nat) :
    decodeDigits (xs ++ ys) acc = decodeDigits ys (decodeDigits xs acc) := by
  induction xs generalizing acc with
  | nil => rfl
  | cons c cs ih => simp [decodeDigits, ih]

theorem digitChar_toNat (d : Nat) (h : d < 10) : (Nat.digitChar d).toNat - 48 = d := by
  interval_cases d <;> rfl

theorem toDigitsCore_eq_append (fuel n : Nat) (ds : List Char) :
    Nat.toDigitsCore 10 fuel n ds = Nat.toDigitsCore 10 fuel n [] ++ ds := by
  induction fuel generalizing n ds with
  | zero => rfl
  | succ fuel ih =>
    simp only [Nat.toDigitsCore]
    by_cases h : n / 10 = 0
    · simp [h]
    · rw [if_neg h, if_neg h, ih (n / 10) _, ih (n / 10) [Nat.digitChar (n % 10)]]
      simp

theorem decode_toDigitsCore (fuel : Nat) :
    ∀ n acc, n < fuel →
      decodeDigits (Nat.toDigitsCore 10 fuel n []) acc =
        acc * 10 ^ (Nat.toDigitsCore 10 fuel n []).length + n := by
  induction fuel with
  | zero => intro n acc h; omega
  | succ fuel ih =>
    intro n acc h
    simp only [Nat.toDigitsCore]
    by_cases h0 : n / 10 = 0
    · have hn : n < 10 := by omega
      rw [if_pos h0]
      simp only [decodeDigits, List.length_cons, List.length_nil, pow_succ, pow_zero,
        one_mul]
      rw [digitChar_toNat (n % 10) (by omega)]
      omega
    · rw [if_neg h0]
      have hn10 : 10 ≤ n := by
        by_contra hc
        exact h0 (Nat.div_eq_of_lt (by omega))
      have hlt : n / 10 < fuel := by
        have := Nat.div_lt_self (by omega : 0 < n) (by omega : 1 < 10)
        omega
      rw [toDigitsCore_eq_append fuel (n / 10) _]
      rw [decodeDigits_append]
      rw [ih (n / 10) acc hlt]
      simp only [decodeDigits, List.length_append, List.length_cons, List.length_nil]
      rw [digitChar_toNat (n % 10) (by omega), pow_succ, ← mul_assoc]
      generalize acc * 10 ^ (Nat.toDigitsCore 10 fuel (n / 10) []).length = k
      omega

theorem nat_repr_injective : Function.Injective Nat.repr := by
  intro m n h
  unfold Nat.repr at h
  have h2 : Nat.toDigits 10 m = Nat.toDigits 10 n := by
    have h3 := congrArg String.data h
    simpa [List.asString] using h3
  have hm := decode_toDigitsCore (m + 1) m 0 (by omega)
  have hn := decode_toDigitsCore (n + 1) n 0 (by omega)
  unfold Nat.toDigits at h2 hm hn
  rw [h2] at hm
  rw [hm] at hn
  omega

/-! ### The allocator probes pairwise-distinct identifiers -/

theorem candidateId_injective (original : String) :
    Function.Injective (candidateId original) := by
  intro i j h
  match i, j with
  | 0, 0 => rfl
  | 0, j + 1 =>
    exfalso
    have hl := congrArg (fun s => s.data.length) h
    simp only [candidateId, String.data_append, List.length_append, List.length_cons,
      List.length_nil] at hl
    omega
  | i + 1, 0 =>
    exfalso
    have hl := congrArg (fun s => s.data.length) h
    simp only [candidateId, String.data_append, List.length_append, List.length_cons,
      List.length_nil] at hl
    omega
  | i + 1, j + 1 =>
    have hd := congrArg String.data h
    simp only [candidateId, String.data_append, List.append_assoc] at hd
    have hd2 := List.append_cancel_left hd
    have hd3 := List.append_cancel_left hd2
    have hd4 : (Nat.repr (i + 1)).data = (Nat.repr (j + 1)).data :=
      (List.append_inj' hd3 rfl).1
    have := nat_repr_injective (String.ext hd4)
    omega

theorem genLoop_spec (db : DB) (original : String) :
    ∀ fuel start,
      (∃ m, start ≤ m ∧ m < start + fuel ∧ idExists db (candidateId original m) = false) →
      ∃ k, start ≤ k ∧ genLoop db original start fuel = candidateId original k ∧
        idExists db (candidateId original k) = false ∧
        ∀ j, start ≤ j → j < k → idExists db (candidateId original j) = true := by
  intro fuel
  induction fuel with
  | zero =>
    intro start hex
    obtain ⟨m, h1, h2, _⟩ := hex
    omega
  | succ fuel ih =>
    intro start hex
    obtain ⟨m, h1, h2, h3⟩ := hex
    by_cases hc : idExists db (candidateId original start) = true
    · simp only [genLoop, hc, if_true]
      have hm : start + 1 ≤ m := by
        rcases Nat.eq_or_lt_of_le h1 with he | hl
        · exfalso
          rw [← he] at h3
          rw [hc] at h3
          simp at h3
        · omega
      obtain ⟨k, hk1, hk2, hk3, hk4⟩ := ih (start + 1) ⟨m, hm, by omega, h3⟩
      refine ⟨k, by omega, hk2, hk3, fun j hj1 hj2 => ?_⟩
      by_cases hj : j = start
      · rw [hj]; exact hc
      · exact hk4 j (by omega) hj2
    · have hc2 : idExists db (candidateId original start) = false := by
        simpa using hc
      simp only [genLoop, hc2, Bool.false_eq_true, if_false]
      exact ⟨start, le_refl _, rfl, hc2, fun j hj1 hj2 => by omega⟩

/-- Pigeonhole: among the first `db.products.length + 1` candidates, some
identifier is not yet taken. -/
theorem exists_free_candidate (db : DB) (original : String) :
    ∃ m, m < db.products.length + 1 ∧ idExists db (candidateId original m) = false := by
  by_contra hcon
  push_neg at hcon
  have hall : ∀ m, m < db.products.length + 1 →
      idExists db (candidateId original m) = true := by
    intro m hm
    have := hcon m hm
    simpa using this
  have hnd : ((List.range (db.products.length + 1)).map (candidateId original)).Nodup :=
    (List.nodup_range _).map (candidateId_injective original)
  have hsub : (List.range (db.products.length + 1)).map (candidateId original) ⊆
      db.products.map (fun p => p.id) := by
    intro s hs
    rw [List.mem_map] at hs
    obtain ⟨m, hm, rfl⟩ := hs
    rw [List.mem_range] at hm
    have h2 := hall m hm
    rw [idExists, List.any_eq_true] at h2
    obtain ⟨p, hp, hpe⟩ := h2
    rw [beq_iff_eq] at hpe
    exact List.mem_map.mpr ⟨p, hp, hpe⟩
  have hle := (hnd.subperm hsub).length_le
  simp only [List.length_map, List.length_range] at hle
  omega

/-- Whatever `validate_product_name` decides, `add_product` only ever
appends to the products table: existing rows survive. -/
theorem add_product_products_mono (db : DB) (pid name category : String) (p : Product)
    (hp : p ∈ db.products) : p ∈ (add_product db pid name category).1.products := by
  simp only [add_product, validate_product_name]
  by_cases hv : hasUpper (pyStrip (pyLower name))
  · rw [if_pos hv]
    exact hp
  · rw [if_neg hv]
    exact List.mem_append_left _ hp

/-! ### Bulk-import structure lemmas -/

theorem processRows_mono (rows : List CsvRow) : ∀ db idx p, p ∈ db.products →
    p ∈ (processRows db idx rows).1.products := by
  induction rows with
  | nil => intro db idx p hp; exact hp
  | cons r rs ih =>
    intro db idx p hp
    simp only [processRows]
    have hmem : p ∈ (add_product db (generate_unique_product_id db r.rid)
        r.rname r.rcategory).1.products :=
      add_product_products_mono db (generate_unique_product_id db r.rid)
        r.rname r.rcategory p hp
    have h2 := ih _ (idx + 1) p hmem
    split
    · exact h2
    · exact h2

theorem processRows_outcome_count (rows : List CsvRow) : ∀ db idx,
    (processRows db idx rows).2.1 + (processRows db idx rows).2.2.length = rows.length := by
  induction rows with
  | nil => intro db idx; rfl
  | cons r rs ih =>
    intro db idx
    simp only [processRows]
    have h2 := ih (add_product db (generate_unique_product_id db r.rid)
      r.rname r.rcategory).1 (idx + 1)
    split
    · simp only [List.length_cons]
      omega
    · simp only [List.length_cons, List.length_cons]
      omega

theorem processRows_append (xs : List CsvRow) : ∀ ys db idx,
    processRows db idx (xs ++ ys) =
      ((processRows (processRows db idx xs).1 (idx + xs.length) ys).1,
       (processRows db idx xs).2.1 +
         (processRows (processRows db idx xs).1 (idx + xs.length) ys).2.1,
       (processRows db idx xs).2.2 ++
         (processRows (processRows db idx xs).1 (idx + xs.length) ys).2.2) := by
  induction xs with
  | nil =>
    intro ys db idx
    simp [processRows]
  | cons r rs ih =>
    intro ys db idx
    simp only [List.cons_append, processRows, List.append_eq]
    rw [ih ys (add_product db (generate_unique_product_id db r.rid)
      r.rname r.rcategory).1 (idx + 1)]
    have hidx : idx + (r :: rs).length = idx + 1 + rs.length := by
      simp only [List.length_cons]
      omega
    rw [hidx]
    split
    · simp only [Prod.mk.injEq, true_and, and_true]
      omega
    · simp only [Prod.mk.injEq, List.cons_append, true_and, and_true]

/-! ### Claim C3: overselling is rejected and leaves the store untouched -/

/-- C3: for every existing product with stock `s` (non-negative, as every
stock reached through the operations is) and every call to `update_stock`
with `sold > s`, the call fails with the insufficient-stock error —
validated against the pre-movement stock, ignoring this call's `added` —
and the store is returned unchanged: the stock is still `s` and no
transaction row was inserted. -/
theorem oversell_rejected_state_unchanged (db : DB) (u : Nat) (date : String)
    (added sold : Int) (remarks : String) (p : Product)
    (hp : get_product_by_uuid db u = some p) (hs : 0 ≤ p.stock) (hlt : p.stock < sold) :
    update_stock db u date added sold remarks =
      (db, false, "Error: Not enough stock to sell.") := by
  have hpos : sold > 0 := by omega
  have hneg : p.stock - sold < 0 := by omega
  simp only [update_stock, hp, validate_stock_availability, if_pos hpos, if_pos hneg]

/-- Witness for `oversell_rejected_state_unchanged`: stock 5, sell 10. -/
theorem oversell_rejected_state_unchanged_witness :
    update_stock stock5DB 0 "d" 0 10 "r" =
      (stock5DB, false, "Error: Not enough stock to sell.") :=
  oversell_rejected_state_unchanged stock5DB 0 "d" 0 10 "r"
    { puuid := 0, id := "p1", name := "widget", category := "cat", stock := 5 }
    (by decide) (by decide) (by decide)

/-! ### Claim C4: name validation happens after lowercasing -/

/-- C4 counterexample: creating a product named `"Widget"` does NOT fail
with a validation error — `add_product` lowercases the name before
validating, so the call succeeds and stores `"widget"`. -/
theorem add_product_uppercase_name_succeeds :
    (add_product emptyDB "p1" "Widget" "cat").2.1 = true ∧
    (add_product emptyDB "p1" "Widget" "cat").1.products =
      [{ puuid := 0, id := "p1", name := "widget", category := "cat", stock := 0 }] := by
  constructor <;> decide

/-- C4 (amended): `add_product` lowercases and trims the name BEFORE
validating it, so creation fails with the validation error exactly when
the lowercased, trimmed name still contains an uppercase character.
Hence a name such as `"Widget"`, whose uppercase letters have lowercase
mappings, succeeds and stores the lowercased name, while a name
containing an uppercase letter with no lowercase mapping — here `"𝐀"`,
U+1D400 MATHEMATICAL BOLD CAPITAL A, which Python `lower()` leaves
unchanged and `isupper()` still reports uppercase — still fails with the
validation error; a fully lowercase name with a fresh identifier
succeeds. -/
theorem add_product_validates_lowered_name (db : DB) (pid name category : String) :
    (add_product db pid name category =
      if hasUpper (pyStrip (pyLower name)) then
        (db, false, "Error: Product name must be lowercase only.")
      else
        ({ db with
            products := db.products ++
              [{ puuid := db.nextUuid, id := pyStrip pid, name := pyStrip (pyLower name),
                 category := category, stock := 0 }],
            nextUuid := db.nextUuid + 1 },
         true, "Product added successfully.")) ∧
    add_product emptyDB "p1" "𝐀" "cat" =
      (emptyDB, false, "Error: Product name must be lowercase only.") ∧
    (add_product emptyDB "p1" "widget" "cat").2.1 = true := by
  refine ⟨?_, by decide, by decide⟩
  simp only [add_product, validate_product_name]
  by_cases hv : hasUpper (pyStrip (pyLower name))
  · rw [if_pos hv, if_pos hv]
  · rw [if_neg hv, if_neg hv]

/-! ### Claims C1 and C2: the mixed add-and-sell movement drops `added` -/

/-- C1 (code bug): starting from a product created with stock 0, after the
successful movements (added 5, sold 0) and (added 3, sold 2) the stored
stock is 3 while the ledger sums give `8 - 2 = 6`: the invariant
`stock = sum(added) - sum(sold)` is violated because `update_stock`
overwrites the candidate stock with `current_stock - sold` when `sold > 0`. -/
theorem stock_invariant_breaks_on_mixed_movement :
    (add_product emptyDB "p1" "widget" "cat").2.1 = true ∧
    (update_stock oneProductDB 0 "2024-01-01" 5 0 "restock").2.1 = true ∧
    (update_stock restockedDB 0 "2024-01-02" 3 2 "correction").2.1 = true ∧
    ((update_stock restockedDB 0 "2024-01-02" 3 2 "correction").1.products.map
      (fun p => p.stock)) = [3] ∧
    sumAdded (update_stock restockedDB 0 "2024-01-02" 3 2 "correction").1 0 -
      sumSold (update_stock restockedDB 0 "2024-01-02" 3 2 "correction").1 0 = 6 := by
  refine ⟨?_, ?_, ?_, ?_, ?_⟩ <;> decide

/-- C2 (code bug): a successful `update_stock` with stock 5, `added = 3`,
`sold = 2` stores stock 3, not the net `5 + 3 - 2 = 6` the spec
prescribes: when `sold > 0` the code replaces the candidate stock with the
result of `validate_stock_availability`, which ignores `added`. -/
theorem apply_drops_added_when_selling :
    (update_stock stock5DB 0 "2024-01-02" 3 2 "r").2.1 = true ∧
    ((update_stock stock5DB 0 "2024-01-02" 3 2 "r").1.products.map
      (fun p => p.stock)) = [3] ∧
    ((5 : Int) + 3 - 2 = 6) := by
  refine ⟨?_, ?_, ?_⟩ <;> decide

/-! ### Claim C5: external identifiers are NOT kept unique -/

/-- C5 (code bug): with `p1` already taken, a second `add_product` under
the same external id succeeds and inserts a second row — the schema of
`create_products_table` declares `id TEXT NOT NULL` without UNIQUE, so the
`duplicate key ... products_id_key` handler the source expects can never
fire and uniqueness of `external_id` is not enforced. -/
theorem duplicate_external_id_second_insert_succeeds :
    (add_product oneProductDB "p1" "gadget" "cat").2.1 = true ∧
    (add_product oneProductDB "p1" "gadget" "cat").1.products.map (fun p => p.id) =
      ["p1", "p1"] ∧
    ((add_product oneProductDB "p1" "gadget" "cat").1.products.map
      (fun p => p.puuid)).Nodup := by
  refine ⟨?_, ?_, ?_⟩ <;> decide

/-! ### Claim C10: empty strings are "not supplied", stock 0 is supplied -/

/-- C10 counterexample: a whitespace-only `new_id` is truthy, so it is
treated as supplied and trimmed to the empty string: the product id IS set
to `""` (refuting "no field can ever be set to the empty string"). -/
theorem whitespace_only_id_written_as_empty :
    (update_product_details stock5DB 0 (some "  ") none none none).2.1 = true ∧
    (update_product_details stock5DB 0 (some "  ") none none none).1.products.map
      (fun p => p.id) = [""] := by
  constructor <;> decide

/-- C10 (amended): in `update_product_details` an empty string for the new
identifier, name or category is treated as not supplied — supplying only
empty strings and no stock modifies nothing and reports "No changes
made." — while `new_stock = 0` is supplied and sets the stock to 0.
(A white-space-only string, however, counts as supplied and is trimmed,
so a field can still end up equal to the empty string.) -/
theorem empty_string_args_not_supplied (db : DB) (u : Nat) :
    update_product_details db u (some "") (some "") (some "") none =
      (db, false, "No changes made.") ∧
    update_product_details db u none none none (some 0) =
      ({ db with
          products := db.products.map
            (fun p => if p.puuid == u then { p with stock := 0 } else p) },
       true, "✅ Product updated successfully.") := by
  constructor
  · rfl
  · rfl

/-! ### Claim C6: the allocator returns the first free identifier -/

/-- C6: `generate_unique_product_id` returns the proposed identifier
unchanged when it is free, and otherwise the first free identifier in the
probe sequence `proposed`, `proposed(1)`, `proposed(2)`, ...; moreover,
three sequential allocations of `sku1` — each followed by inserting a
product under the returned identifier — yield `sku1`, `sku1(1)` and
`sku1(2)` in order. -/
theorem allocator_returns_first_free :
    (∀ (db : DB) (original : String),
      (idExists db original = false → generate_unique_product_id db original = original) ∧
      ∃ k, generate_unique_product_id db original = candidateId original k ∧
        idExists db (candidateId original k) = false ∧
        ∀ j, j < k → idExists db (candidateId original j) = true) ∧
    (generate_unique_product_id emptyDB "sku1" = "sku1" ∧
     generate_unique_product_id skuDB1 "sku1" = "sku1(1)" ∧
     generate_unique_product_id skuDB2 "sku1" = "sku1(2)") := by
  constructor
  · intro db original
    obtain ⟨m, hm1, hm2⟩ := exists_free_candidate db original
    obtain ⟨k, hk0, hk1, hk2, hk3⟩ :=
      genLoop_spec db original (db.products.length + 1) 0 ⟨m, Nat.zero_le m, by omega, hm2⟩
    constructor
    · intro hfree
      have hk4 : k = 0 := by
        by_contra hne
        have h5 := hk3 0 (Nat.zero_le 0) (by omega)
        rw [show candidateId original 0 = original from rfl, hfree] at h5
        simp at h5
      rw [show generate_unique_product_id db original =
        genLoop db original 0 (db.products.length + 1) from rfl, hk1, hk4]
      rfl
    · exact ⟨k, hk1, hk2, fun j hj => hk3 j (Nat.zero_le j) hj⟩
  · refine ⟨?_, ?_, ?_⟩ <;> decide

/-- Witness for `allocator_returns_first_free`: a free proposal on the
empty store is returned unchanged. -/
theorem allocator_returns_first_free_witness :
    generate_unique_product_id emptyDB "sku1" = "sku1" :=
  (allocator_returns_first_free.1 emptyDB "sku1").1 (by decide)

/-! ### Claim C7: a rename rewrites exactly the owned snapshots -/

/-- C7: whenever `update_product_details` is supplied a (truthy) new
external identifier or new name, the call succeeds and the transactions
table becomes the pointwise rewrite of the old one in which exactly the
rows owned by the product have `product_id` (resp. `product_name`) set to
the trimmed (resp. lowercased and trimmed) supplied value, while rows of
other products and all remaining fields (`date`, `quantity_added`,
`quantity_sold`, `remarks`, `uuid`) are unchanged. -/
theorem rename_rewrites_snapshots (db : DB) (u : Nat)
    (new_id new_name new_category : Option String) (new_stock : Option Int)
    (h : truthy new_id = true ∨ truthy new_name = true) :
    (update_product_details db u new_id new_name new_category new_stock).2.1 = true ∧
    (update_product_details db u new_id new_name new_category new_stock).1.transactions =
      db.transactions.map (fun t =>
        if t.product_uuid == u then
          { t with
              product_id := if truthy new_id then pyStrip (new_id.getD "") else t.product_id,
              product_name := if truthy new_name then pyStrip (pyLower (new_name.getD ""))
                else t.product_name }
        else t) := by
  have hguard : (truthy new_id || truthy new_name || truthy new_category ||
      new_stock.isSome) = true := by
    rcases h with h | h <;> simp [h]
  refine ⟨?_, ?_⟩
  · simp [update_product_details, hguard]
  · cases hid : truthy new_id <;> cases hname : truthy new_name
    · rw [hid, hname] at h
      rcases h with h | h <;> simp at h
    · simp only [update_product_details, hguard, if_true, hid, hname, Bool.false_eq_true,
        if_false]
      apply List.map_congr_left
      intro t _
      by_cases h2 : t.product_uuid == u <;> simp [h2]
    · simp only [update_product_details, hguard, if_true, hid, hname, Bool.false_eq_true,
        if_false]
      apply List.map_congr_left
      intro t _
      by_cases h2 : t.product_uuid == u <;> simp [h2]
    · simp only [update_product_details, hguard, if_true, hid, hname, List.map_map]
      apply List.map_congr_left
      intro t _
      by_cases h2 : t.product_uuid == u <;> simp [h2, Function.comp]

/-- Witness for `rename_rewrites_snapshots`: renaming product 0 of
`twoTxDB` rewrites the snapshot of its movement and leaves the movement
of product 1 untouched. -/
theorem rename_rewrites_snapshots_witness :
    (update_product_details twoTxDB 0 (some "p9") (some "NewName") none none).2.1 = true ∧
    (update_product_details twoTxDB 0 (some "p9") (some "NewName") none none).1.transactions =
      [{ tuuid := 10, date := "d1", product_uuid := 0, product_id := "p9",
         product_name := "newname", quantity_added := 5, quantity_sold := 0, remarks := "r1" },
       { tuuid := 11, date := "d2", product_uuid := 1, product_id := "p2",
         product_name := "v", quantity_added := 3, quantity_sold := 0, remarks := "r2" }] := by
  have h := rename_rewrites_snapshots twoTxDB 0 (some "p9") (some "NewName") none none
    (Or.inl (by decide))
  refine ⟨h.1, ?_⟩
  rw [h.2]
  decide

/-! ### Claim C8: CSV rows are independent attempts -/

/-- C8: bulk import is a sequence of independent attempts: every row is
given exactly one outcome (it is counted as added or a warning is emitted
for it), a later batch segment is processed from the state the earlier
segment left behind (no abort), and every product present after the
earlier segment is still present after the whole batch (no rollback). -/
theorem csv_rows_independent (db : DB) (xs ys : List CsvRow) :
    ((process_csv_products db (xs ++ ys)).2.1 +
        (process_csv_products db (xs ++ ys)).2.2.length = (xs ++ ys).length) ∧
    ((process_csv_products db (xs ++ ys)).1 =
        (processRows (process_csv_products db xs).1 xs.length ys).1) ∧
    (∀ p, p ∈ (process_csv_products db xs).1.products →
        p ∈ (process_csv_products db (xs ++ ys)).1.products) := by
  refine ⟨processRows_outcome_count _ db 0, ?_, ?_⟩
  · rw [process_csv_products, process_csv_products, processRows_append]
    simp
  · intro p hp
    rw [process_csv_products, processRows_append]
    exact processRows_mono ys _ _ p hp

/-- Witness for `csv_rows_independent`: the product created by the first
batch segment survives processing of the second. -/
theorem csv_rows_independent_witness :
    ({ puuid := 0, id := "a", name := "n", category := "c", stock := 0 } : Product) ∈
      (process_csv_products emptyDB
        ([{ rid := "a", rname := "n", rcategory := "c" }] ++
         [{ rid := "b", rname := "m", rcategory := "c" }])).1.products :=
  (csv_rows_independent emptyDB [{ rid := "a", rname := "n", rcategory := "c" }]
    [{ rid := "b", rname := "m", rcategory := "c" }]).2.2 _ (by decide)

/-! ### Stock-summary lemmas -/

theorem mem_addedRows (db : DB) (pt : Product × Transaction) :
    pt ∈ addedRows db ↔
      pt.1 ∈ db.products ∧ pt.2 ∈ db.transactions ∧
        pt.2.product_uuid = pt.1.puuid ∧ 0 < pt.2.quantity_added := by
  obtain ⟨p, t⟩ := pt
  simp only [addedRows, List.mem_flatMap, List.mem_map, List.mem_filter,
    Bool.and_eq_true, beq_iff_eq, decide_eq_true_eq, Prod.mk.injEq]
  constructor
  · rintro ⟨p', hp', t', ⟨ht', hu, hq⟩, he1, he2⟩
    subst he1; subst he2
    exact ⟨hp', ht', hu, hq⟩
  · rintro ⟨hp, ht, hu, hq⟩
    exact ⟨p, hp, t, ⟨ht, hu, hq⟩, rfl, rfl⟩

theorem sum_flatMap_int {α : Type} (l : List α) (g : α → List Int) :
    (l.flatMap g).sum = (l.map (fun a => (g a).sum)).sum := by
  induction l with
  | nil => rfl
  | cons a l ih => simp [List.flatMap_cons, List.sum_append, ih]

theorem sum_map_ite_single (l : List Product) (p : Product) (S : Product → Int)
    (hnd : l.Nodup) (hp : p ∈ l) (hkey : ∀ q ∈ l, skey q = skey p → q = p) :
    (l.map (fun q => if skey q == skey p then S q else 0)).sum = S p := by
  induction l with
  | nil => cases hp
  | cons a l ih =>
    rw [List.map_cons, List.sum_cons]
    rcases List.mem_cons.mp hp with he | hp'
    · subst he
      rw [if_pos (beq_self_eq_true (skey p))]
      have htail : (l.map (fun q => if skey q == skey p then S q else 0)).sum = 0 := by
        apply List.sum_eq_zero
        intro x hx
        rw [List.mem_map] at hx
        obtain ⟨q, hq, rfl⟩ := hx
        have hqa : q ≠ p := by
          intro he2
          exact (List.nodup_cons.mp hnd).1 (he2 ▸ hq)
        have hne : (skey q == skey p) = false := by
          rw [beq_eq_false_iff_ne]
          intro he2
          exact hqa (hkey q (List.mem_cons_of_mem p hq) he2)
        simp [hne]
      rw [htail, add_zero]
    · have hap : a ≠ p := by
        rintro rfl
        exact (List.nodup_cons.mp hnd).1 hp'
      have hne : (skey a == skey p) = false := by
        rw [beq_eq_false_iff_ne]
        intro he2
        exact hap (hkey a (List.mem_cons_self a l) he2)
      simp only [hne, Bool.false_eq_true, if_false, zero_add]
      exact ih (List.nodup_cons.mp hnd).2 hp'
        (fun q hq he2 => hkey q (List.mem_cons_of_mem a hq) he2)

theorem groupTotal_eq_ownTotal (db : DB) (p : Product)
    (hnd : db.products.Nodup) (hp : p ∈ db.products)
    (hkey : ∀ q ∈ db.products, skey q = skey p → q = p) :
    groupTotal db (skey p) = ownTotal db p := by
  rw [groupTotal, addedRows, List.filter_flatMap, List.map_flatMap, sum_flatMap_int]
  have h2 : ∀ p' ∈ db.products,
      ((((db.transactions.filter (fun t =>
          t.product_uuid == p'.puuid && decide (0 < t.quantity_added))).map
        (fun t => (p', t))).filter (fun pt => skey pt.1 == skey p)).map
          (fun pt => pt.2.quantity_added)).sum =
        (if skey p' == skey p then ownTotal db p' else 0) := by
    intro p' _
    rw [List.filter_map]
    by_cases hk : (skey p' == skey p) = true
    · have hc : ((fun pt : Product × Transaction => skey pt.1 == skey p) ∘
          (fun t => (p', t))) = fun t : Transaction => true := by
        funext t
        simp [Function.comp, hk]
      rw [hc, if_pos hk]
      rw [List.filter_eq_self.mpr (fun a _ => rfl), List.map_map]
      rfl
    · have hc : ((fun pt : Product × Transaction => skey pt.1 == skey p) ∘
          (fun t => (p', t))) = fun t : Transaction => false := by
        funext t
        simp only [Function.comp]
        rw [Bool.eq_false_iff]
        exact hk
      rw [hc, if_neg hk]
      rw [List.filter_eq_nil_iff.mpr (fun a _ => by simp)]
      rfl
  rw [List.map_congr_left h2]
  exact sum_map_ite_single db.products p (ownTotal db) hnd hp hkey

/-! ### Claim C9: the stock-added summary -/

/-- C9 counterexample: the source groups by `(id, name, category, stock)`
rather than by product identity, so two distinct products (different
uuids) agreeing on those four columns — reachable since `products.id` is
not unique — are merged into a single summary row whose total (10) is the
sum over BOTH products, although each product's own movements with
`quantity_added > 0` total 5. -/
theorem stock_summary_merges_equal_keyed_products :
    dupKeyDB.products.length = 2 ∧
    (dupKeyDB.products.map (fun p => p.puuid)).Nodup ∧
    (∀ p ∈ dupKeyDB.products, ∃ t ∈ dupKeyDB.transactions,
      t.product_uuid = p.puuid ∧ 0 < t.quantity_added) ∧
    (∀ p ∈ dupKeyDB.products, ownTotal dupKeyDB p = 5) ∧
    get_stock_summary dupKeyDB =
      [{ spid := "p1", sname := "w", scategory := "c",
         total_added := 10, current_stock := 5 }] := by
  refine ⟨?_, ?_, ?_, ?_, ?_⟩ <;> decide

/-- C9 (amended): provided no two distinct product rows agree on the whole
grouping key `(id, name, category, stock)` — in particular whenever
external ids are unique, as the spec intends — `get_stock_summary` has
exactly one row per product owning at least one movement with
`quantity_added > 0` (products without such a movement get no row), the
row carries the product's identifying columns, the total of
`quantity_added` over those movements, and its current stock, and the
output is ordered descending by that total. -/
theorem stock_summary_rows_characterized (db : DB)
    (hnd : db.products.Nodup)
    (hkey : ∀ p ∈ db.products, ∀ q ∈ db.products, skey p = skey q → p = q) :
    (∀ p ∈ db.products,
      ((∃ t ∈ db.transactions, t.product_uuid = p.puuid ∧ 0 < t.quantity_added) ↔
        ({ spid := p.id, sname := p.name, scategory := p.category,
           total_added := ownTotal db p, current_stock := p.stock } : SummaryRow) ∈
          get_stock_summary db)) ∧
    (∀ r ∈ get_stock_summary db, ∃ p, p ∈ db.products ∧
      (∃ t ∈ db.transactions, t.product_uuid = p.puuid ∧ 0 < t.quantity_added) ∧
      r = { spid := p.id, sname := p.name, scategory := p.category,
            total_added := ownTotal db p, current_stock := p.stock }) ∧
    (get_stock_summary db).Nodup ∧
    List.Sorted summaryLE (get_stock_summary db) := by
  have hmem : ∀ r : SummaryRow, r ∈ get_stock_summary db ↔
      ∃ k ∈ ((addedRows db).map (fun pt => skey pt.1)).dedup,
        r = { spid := k.1, sname := k.2.1, scategory := k.2.2.1,
              total_added := groupTotal db k, current_stock := k.2.2.2 } := by
    intro r
    simp only [get_stock_summary, List.mem_insertionSort, List.mem_map]
    constructor
    · rintro ⟨k, hk, rfl⟩
      exact ⟨k, hk, rfl⟩
    · rintro ⟨k, hk, rfl⟩
      exact ⟨k, hk, rfl⟩
  refine ⟨?_, ?_, ?_, ?_⟩
  · intro p hp
    have hkp : ∀ q ∈ db.products, skey q = skey p → q = p :=
      fun q hq he => hkey q hq p hp he
    constructor
    · rintro ⟨t, ht, hu, hq⟩
      rw [hmem]
      refine ⟨skey p, ?_, ?_⟩
      · rw [List.mem_dedup, List.mem_map]
        exact ⟨(p, t), (mem_addedRows db (p, t)).mpr ⟨hp, ht, hu, hq⟩, rfl⟩
      · rw [groupTotal_eq_ownTotal db p hnd hp hkp]
        rfl
    · intro hr
      rw [hmem] at hr
      obtain ⟨k, hk, he⟩ := hr
      have hkeq : k = skey p := by
        have h5 := SummaryRow.mk.injEq .. |>.mp he
        obtain ⟨h6, h7, h8, _, h9⟩ := h5
        rw [skey, h6, h7, h8, h9]
      subst hkeq
      rw [List.mem_dedup, List.mem_map] at hk
      obtain ⟨pt, hpt, hks⟩ := hk
      rw [mem_addedRows] at hpt
      obtain ⟨hp1, ht1, hu1, hq1⟩ := hpt
      have : pt.1 = p := hkp pt.1 hp1 hks
      exact ⟨pt.2, ht1, by rw [← this]; exact hu1, hq1⟩
  · intro r hr
    rw [hmem] at hr
    obtain ⟨k, hk, he⟩ := hr
    rw [List.mem_dedup, List.mem_map] at hk
    obtain ⟨pt, hpt, hks⟩ := hk
    rw [mem_addedRows] at hpt
    obtain ⟨hp1, ht1, hu1, hq1⟩ := hpt
    refine ⟨pt.1, hp1, ⟨pt.2, ht1, hu1, hq1⟩, ?_⟩
    have hkp : ∀ q ∈ db.products, skey q = skey pt.1 → q = pt.1 :=
      fun q hq he2 => hkey q hq pt.1 hp1 he2
    rw [he, ← hks, groupTotal_eq_ownTotal db pt.1 hnd hp1 hkp]
    rfl
  · have hinj : Function.Injective
        (fun k : String × String × String × Int =>
          ({ spid := k.1, sname := k.2.1, scategory := k.2.2.1,
             total_added := groupTotal db k, current_stock := k.2.2.2 } : SummaryRow)) := by
      intro a b h
      have h5 := SummaryRow.mk.injEq .. |>.mp h
      obtain ⟨h6, h7, h8, _, h9⟩ := h5
      have ha : a = (a.1, a.2.1, a.2.2.1, a.2.2.2) := rfl
      have hb : b = (b.1, b.2.1, b.2.2.1, b.2.2.2) := rfl
      rw [ha, hb, h6, h7, h8, h9]
    have hs : get_stock_summary db = List.insertionSort summaryLE
        (((addedRows db).map (fun pt => skey pt.1)).dedup.map
          (fun k => { spid := k.1, sname := k.2.1, scategory := k.2.2.1,
                      total_added := groupTotal db k, current_stock := k.2.2.2 })) := rfl
    rw [hs]
    exact (List.perm_insertionSort summaryLE _).symm.nodup
      ((List.nodup_dedup _).map hinj)
  · have hs : get_stock_summary db = List.insertionSort summaryLE
        (((addedRows db).map (fun pt => skey pt.1)).dedup.map
          (fun k => { spid := k.1, sname := k.2.1, scategory := k.2.2.1,
                      total_added := groupTotal db k, current_stock := k.2.2.2 })) := rfl
    rw [hs]
    exact List.sorted_insertionSort summaryLE _

/-- Witness for `stock_summary_rows_characterized`: on `twoTxDB` the
theorem puts the row of product `p1` (total added 5, stock 5) in the
summary. -/
theorem stock_summary_rows_characterized_witness :
    ({ spid := "p1", sname := "w", scategory := "c",
       total_added := 5, current_stock := 5 } : SummaryRow) ∈
      get_stock_summary twoTxDB := by
  have h := stock_summary_rows_characterized twoTxDB (by decide) (by decide)
  have h2 := (h.1 { puuid := 0, id := "p1", name := "w", category := "c", stock := 5 }
      (by decide)).mp
    ⟨{ tuuid := 10, date := "d1", product_uuid := 0, product_id := "p1", product_name := "w",
       quantity_added := 5, quantity_sold := 0, remarks := "r1" }, by decide, by decide,
     by decide⟩
  have h3 : ownTotal twoTxDB
      { puuid := 0, id := "p1", name := "w", category := "c", stock := 5 } = 5 := by decide
  rw [h3] at h2
  exact h2

end Inventory
